import Mathlib

/-!
Shallow embedding of `apps/utils/step_results_manager.py`: a two-tier
artifact cache (`StepResultsManager`) over an in-memory session mapping
(`st.session_state`) and a durable directory of pickle files, keyed by a
fixed stage catalog (`STEP_MAPPINGS`).

Modelling decisions:
* Python values that may be stored are modelled by `PyValue`; Python's
  `None` is the constructor `PyValue.none`.  The read path of
  `load_step_result` returns `PyValue` directly (not `Option PyValue`),
  matching the Python code, which uses `None` both as the absence signal
  and as a possible stored payload.
* The session mapping and the file system are association lists keyed by
  strings (session keys / full file paths).  `pickle.dump`/`pickle.load`
  are modelled as storing and retrieving the value itself; the exception
  handlers around them (serialization or OS failure) are external fault
  paths and never fire in the model, and likewise `del` / `unlink` never
  fail, so `clear_step` never takes its `except` branches.
* `Path.mkdir` in the constructor has no observable effect in the model.
-/

/-- Python runtime values usable as cached artifacts: `None`, numbers,
strings, dicts, lists, tuples and pandas DataFrames (a DataFrame is
abstracted to its row and column counts; `data.empty` is true iff an
axis has length 0). -/
inductive PyValue where
  | none
  | int (n : Int)
  | str (s : String)
  | dict (entries : List (String × PyValue))
  | pylist (xs : List PyValue)
  | tuple (xs : List PyValue)
  | dataframe (rows : Nat) (cols : Nat)

/-- Python's `data is None` identity test. -/
def PyValue.isNone : PyValue → Bool
  | .none => true
  | _ => false

/-- Association-list lookup (first entry whose key matches), modelling
Python dict indexing / `in` tests. -/
def assocLookup {α : Type} : List (String × α) → String → Option α
  | [], _ => Option.none
  | (k, v) :: rest, key => if k = key then some v else assocLookup rest key

/-- Association-list update, replacing the first entry with the given key
in place, or appending a fresh entry; models `d[key] = val`. -/
def assocInsert {α : Type} : List (String × α) → String → α → List (String × α)
  | [], key, val => [(key, val)]
  | (k, v) :: rest, key, val =>
    if k = key then (key, val) :: rest else (k, v) :: assocInsert rest key val

/-- Association-list deletion of the first entry with the given key;
models `del d[key]` / `Path.unlink`. -/
def assocErase {α : Type} : List (String × α) → String → List (String × α)
  | [], _ => []
  | (k, v) :: rest, key => if k = key then rest else (k, v) :: assocErase rest key

/-- The session tier (`st.session_state`): stage key → stored value. -/
abbrev Session := List (String × PyValue)

/-- The durable tier: full file path → value stored in that pickle file.
Presence of a key models `filepath.exists()`. -/
abbrev Files := List (String × PyValue)

/-- `StepResultsManager.STEP_MAPPINGS`: the fixed stage catalog, mapping
each step key to its pickle file name, in declaration order. -/
def STEP_MAPPINGS : List (String × String) :=
  [ ("pruned_interactions", "pruned_interactions.pkl"),
    ("feature_encoding", "feature_encoding.pkl"),
    ("user_profiles", "user_profiles.pkl"),
    ("gnn_graph", "gnn_graph.pkl"),
    ("gnn_propagation", "gnn_propagation.pkl"),
    ("gnn_training", "gnn_training.pkl"),
    ("gnn_predictions", "streamlit_gnn_predictions.pkl"),
    ("cbf_predictions", "streamlit_cbf_predictions.pkl"),
    ("hybrid_predictions", "streamlit_hybrid_predictions.pkl"),
    ("cbf_evaluation_metrics", "cbf_evaluation_metrics.pkl"),
    ("gnn_evaluation_metrics", "gnn_evaluation_metrics.pkl"),
    ("hybrid_evaluation_metrics", "hybrid_evaluation_metrics.pkl"),
    ("personalized_filters", "personalized_filters.pkl"),
    ("outfit_recommendations", "outfit_recommendations.pkl"),
    ("training_time", "training_time.pkl"),
    ("inference_time", "inference_time.pkl"),
    ("gnn_training_time", "gnn_training_time.pkl"),
    ("gnn_inference_time", "gnn_inference_time.pkl") ]

/-- The catalog's stage keys in declaration order
(`STEP_MAPPINGS.keys()`). -/
def stepKeys : List String := STEP_MAPPINGS.map Prod.fst

/-- A `StepResultsManager` instance; `artifacts_dir` is the configured
root directory for the durable tier. -/
structure StepResultsManager where
  artifacts_dir : String

/-- `self.artifacts_dir / filename`. -/
def filePath (m : StepResultsManager) (filename : String) : String :=
  m.artifacts_dir ++ "/" ++ filename

/-- `filepath.exists()` for the stage file named `filename`. -/
def fileExists (m : StepResultsManager) (fs : Files) (filename : String) : Bool :=
  (assocLookup fs (filePath m filename)).isSome

/-- `StepResultsManager._is_valid_data`: `None` is invalid; a dict, list
or tuple is valid iff non-empty; a DataFrame is valid iff `not
data.empty`; every other non-`None` value is valid. -/
def is_valid_data : PyValue → Bool
  | .none => false
  | .dict entries => decide (0 < entries.length)
  | .pylist xs => decide (0 < xs.length)
  | .tuple xs => decide (0 < xs.length)
  | .dataframe rows cols => !(rows == 0 || cols == 0)
  | _ => true

/-- `step_key in st.session_state and self._is_valid_data(st.session_state[step_key])`,
the compound test used by `load_from_file_to_session`, `get_step_status`,
`get_missing_steps` and `get_completed_steps`. -/
def validEntry (sess : Session) (step_key : String) : Bool :=
  match assocLookup sess step_key with
  | some v => is_valid_data v
  | Option.none => false

/-- `StepResultsManager.save_step_result` (write_durable): returns the
updated file system and the success flag.  Unknown keys fail without
touching the file system; otherwise the stage's file is overwritten. -/
def save_step_result (m : StepResultsManager) (fs : Files) (step_key : String)
    (data : PyValue) : Files × Bool :=
  match assocLookup STEP_MAPPINGS step_key with
  | Option.none => (fs, false)
  | some filename => (assocInsert fs (filePath m filename) data, true)

/-- `StepResultsManager.load_step_result` (read_durable): `None` for an
unknown key or a missing file, otherwise the unpickled file content
(which may itself be `None`). -/
def load_step_result (m : StepResultsManager) (fs : Files) (step_key : String) : PyValue :=
  match assocLookup STEP_MAPPINGS step_key with
  | Option.none => PyValue.none
  | some filename =>
    match assocLookup fs (filePath m filename) with
    | Option.none => PyValue.none
    | some v => v

/-- `StepResultsManager.save_to_session_and_file` (write_both): sets the
session entry unconditionally, then performs the durable write; returns
(new session, new file system, durable success flag). -/
def save_to_session_and_file (m : StepResultsManager) (sess : Session) (fs : Files)
    (step_key : String) (data : PyValue) : Session × Files × Bool :=
  let sess2 := assocInsert sess step_key data
  let r := save_step_result m fs step_key data
  (sess2, r.1, r.2)

/-- `StepResultsManager.load_from_file_to_session` (load_into_session):
short-circuits to success when the session already holds a valid entry
and `force` is off; otherwise installs the durable value when it is not
`None`, and fails (leaving the session untouched) when it is. -/
def load_from_file_to_session (m : StepResultsManager) (fs : Files) (sess : Session)
    (step_key : String) (force : Bool) : Session × Bool :=
  if !force && validEntry sess step_key then (sess, true)
  else
    let data := load_step_result m fs step_key
    if data.isNone then (sess, false)
    else (assocInsert sess step_key data, true)

/-- `StepResultsManager.restore_all_steps` (restore_all): folds
`load_from_file_to_session` over the catalog in order, accumulating the
per-stage result list and threading the session. -/
def restore_all_steps (m : StepResultsManager) (fs : Files) (sess : Session)
    (force : Bool) : List (String × Bool) × Session :=
  STEP_MAPPINGS.foldl
    (fun acc kv =>
      let r := load_from_file_to_session m fs acc.2 kv.1 force
      (acc.1 ++ [(kv.1, r.2)], r.1))
    ([], sess)

/-- One per-stage record of `get_step_status`. -/
structure StepStatusEntry where
  in_session : Bool
  in_file : Bool
  file_path : Option String

/-- The status record built for one catalog row. -/
def statusEntry (m : StepResultsManager) (fs : Files) (sess : Session)
    (step_key filename : String) : StepStatusEntry :=
  { in_session := validEntry sess step_key,
    in_file := fileExists m fs filename,
    file_path := if fileExists m fs filename then some (filePath m filename) else Option.none }

/-- `StepResultsManager.get_step_status` (status): one record per catalog
stage, in catalog order. -/
def get_step_status (m : StepResultsManager) (fs : Files) (sess : Session) :
    List (String × StepStatusEntry) :=
  STEP_MAPPINGS.map (fun kv => (kv.1, statusEntry m fs sess kv.1 kv.2))

/-- `StepResultsManager.clear_step` (clear_stage): deletes the session
entry when requested and present, deletes the stage file when requested,
the stage is known and the file exists; `del`/`unlink` never fail in the
model, so the returned success flag is always `true`. -/
def clear_step (m : StepResultsManager) (sess : Session) (fs : Files) (step_key : String)
    (clear_session clear_file : Bool) : Session × Files × Bool :=
  let sess2 :=
    if clear_session && (assocLookup sess step_key).isSome
    then assocErase sess step_key else sess
  let fs2 :=
    match clear_file, assocLookup STEP_MAPPINGS step_key with
    | true, some filename =>
      if fileExists m fs filename then assocErase fs (filePath m filename) else fs
    | _, _ => fs
  (sess2, fs2, true)

/-- `StepResultsManager.clear_all_steps` (clear_all): applies
`clear_step` to every catalog stage, threading session and files. -/
def clear_all_steps (m : StepResultsManager) (sess : Session) (fs : Files)
    (clear_session clear_files : Bool) : List (String × Bool) × Session × Files :=
  STEP_MAPPINGS.foldl
    (fun acc kv =>
      let r := clear_step m acc.2.1 acc.2.2 kv.1 clear_session clear_files
      (acc.1 ++ [(kv.1, r.2.2)], r.1, r.2.1))
    ([], sess, fs)

/-- `StepResultsManager.get_missing_steps` (missing_stages): catalog keys
with neither a valid session entry nor an existing file, in order. -/
def get_missing_steps (m : StepResultsManager) (fs : Files) (sess : Session) : List String :=
  (STEP_MAPPINGS.filter
    (fun kv => !(validEntry sess kv.1 || fileExists m fs kv.2))).map Prod.fst

/-- `StepResultsManager.get_completed_steps` (completed_stages): catalog
keys with a valid session entry or an existing file, in order. -/
def get_completed_steps (m : StepResultsManager) (fs : Files) (sess : Session) : List String :=
  (STEP_MAPPINGS.filter
    (fun kv => validEntry sess kv.1 || fileExists m fs kv.2)).map Prod.fst

/-- `get_step_results_manager`: the singleton accessor.  Takes the
current module-global `_manager_instance` and the optional
`artifacts_dir` argument; returns either the raised `ValueError` message
or the returned instance paired with the new module-global state. -/
def get_step_results_manager (instState : Option StepResultsManager)
    (artifacts_dir : Option String) :
    Except String (StepResultsManager × Option StepResultsManager) :=
  match instState with
  | some m => Except.ok (m, some m)
  | Option.none =>
    match artifacts_dir with
    | Option.none => Except.error "artifacts_dir must be provided for first initialization"
    | some d => Except.ok (⟨d⟩, some (⟨d⟩ : StepResultsManager))

/-! ### Association-list lemmas -/

theorem assocLookup_insert_self {α : Type} (l : List (String × α)) (k : String) (v : α) :
    assocLookup (assocInsert l k v) k = some v := by
  induction l with
  | nil => simp [assocInsert, assocLookup]
  | cons p rest ih =>
    by_cases h : p.1 = k
    · simp [assocInsert, assocLookup, h]
    · simpa [assocInsert, assocLookup, h] using ih

theorem assocLookup_insert_ne {α : Type} (l : List (String × α)) (k k' : String) (v : α)
    (h : k' ≠ k) : assocLookup (assocInsert l k v) k' = assocLookup l k' := by
  have hk : ¬k = k' := fun hh => h hh.symm
  induction l with
  | nil => simp [assocInsert, assocLookup, hk]
  | cons p rest ih =>
    by_cases hp : p.1 = k
    · simp [assocInsert, assocLookup, hp, hk]
    · simp [assocInsert, assocLookup, hp, ih]

theorem assocInsert_lookup_eq {α : Type} {l : List (String × α)} {k : String} {v : α}
    (h : assocLookup l k = some v) : assocInsert l k v = l := by
  induction l with
  | nil => simp [assocLookup] at h
  | cons p rest ih =>
    by_cases hp : p.1 = k
    · simp only [assocLookup, if_pos hp, Option.some.injEq] at h
      simp only [assocInsert, if_pos hp]
      rw [← hp, ← h, Prod.mk.eta]
    · simp only [assocLookup, if_neg hp] at h
      simp only [assocInsert, if_neg hp]
      rw [ih h]

theorem assocLookup_mem {α : Type} {l : List (String × α)} {k : String} {v : α}
    (h : assocLookup l k = some v) : (k, v) ∈ l := by
  induction l with
  | nil => simp [assocLookup] at h
  | cons p rest ih =>
    by_cases hp : p.1 = k
    · simp only [assocLookup, if_pos hp, Option.some.injEq] at h
      rw [← hp, ← h, Prod.mk.eta]
      exact List.mem_cons_self _ _
    · simp only [assocLookup, if_neg hp] at h
      exact List.mem_cons_of_mem _ (ih h)

theorem isNone_eq_true_iff (d : PyValue) : d.isNone = true ↔ d = PyValue.none := by
  cases d <;> simp [PyValue.isNone]

theorem isNone_eq_false_iff (d : PyValue) : d.isNone = false ↔ d ≠ PyValue.none := by
  cases d <;> simp [PyValue.isNone]

theorem validEntry_congr {sess t : Session} {k : String}
    (h : assocLookup t k = assocLookup sess k) : validEntry t k = validEntry sess k := by
  simp [validEntry, h]

/-! ### Claim theorems -/

/-- C1 counterexample: for the unknown stage id `"unknown_stage"`,
`clear_step` with `clear_file = true` returns `true`, not `false` as the
claim states: the clear-file path silently skips unknown stage ids. -/
theorem claim_C1_counterexample :
    (clear_step ⟨"artifacts"⟩ [] [] "unknown_stage" true true).2.2 = true := rfl

/-- C1 (amended): for every stage_id not in the Stage Catalog,
`write_durable` returns false and `read_durable` returns absent, but
`clear_stage(stage_id, clear_file=true)` returns true: the clear-file
path silently skips unknown stage ids instead of reporting a boolean
failure. -/
theorem claim_C1_unknown_stage (m : StepResultsManager) (sess : Session) (fs : Files)
    (k : String) (hk : assocLookup STEP_MAPPINGS k = Option.none) :
    (∀ v, (save_step_result m fs k v).2 = false)
    ∧ load_step_result m fs k = PyValue.none
    ∧ (clear_step m sess fs k true true).2.2 = true := by
  refine ⟨fun v => ?_, ?_, rfl⟩ <;> simp [save_step_result, load_step_result, hk]

/-- Witness for C1 at the unknown stage id `"unknown_stage"`. -/
theorem claim_C1_unknown_stage_witness :
    assocLookup STEP_MAPPINGS "unknown_stage" = Option.none
    ∧ ((∀ v, (save_step_result ⟨"artifacts"⟩ [] "unknown_stage" v).2 = false)
       ∧ load_step_result ⟨"artifacts"⟩ [] "unknown_stage" = PyValue.none
       ∧ (clear_step ⟨"artifacts"⟩ [] [] "unknown_stage" true true).2.2 = true) :=
  ⟨rfl, claim_C1_unknown_stage ⟨"artifacts"⟩ [] [] "unknown_stage" rfl⟩

/-- C2 counterexample: with an empty durable tier and a valid session
entry for `"training_time"`, `load_from_file_to_session` with
`force = true` returns `false` and leaves the existing session entry in
place instead of overwriting it. -/
theorem claim_C2_counterexample :
    load_from_file_to_session ⟨"artifacts"⟩ [] [("training_time", PyValue.int 5)]
        "training_time" true
      = ([("training_time", PyValue.int 5)], false) := rfl

/-- C2 (amended): `load_into_session(stage_id, force=true)` always
bypasses the session short-circuit and re-reads the durable tier; when
the durable read yields a present (non-`None`) value it overwrites any
existing session entry, even a valid one, and succeeds; when the durable
read yields absent it returns failure and leaves the session
unchanged. -/
theorem claim_C2_force_reload (m : StepResultsManager) (fs : Files) (sess : Session)
    (k : String) :
    (load_step_result m fs k ≠ PyValue.none →
      load_from_file_to_session m fs sess k true
        = (assocInsert sess k (load_step_result m fs k), true))
    ∧ (load_step_result m fs k = PyValue.none →
      load_from_file_to_session m fs sess k true = (sess, false)) := by
  constructor
  · intro h
    simp [load_from_file_to_session, (isNone_eq_false_iff _).2 h]
  · intro h
    simp [load_from_file_to_session, h, PyValue.isNone]

/-- Witness for C2: a forced reload over a durable value `7` overwrites
the valid session entry `5`. -/
theorem claim_C2_force_reload_witness :
    load_from_file_to_session ⟨"artifacts"⟩ [("artifacts/training_time.pkl", PyValue.int 7)]
        [("training_time", PyValue.int 5)] "training_time" true
      = ([("training_time", PyValue.int 7)], true) :=
  (claim_C2_force_reload ⟨"artifacts"⟩ [("artifacts/training_time.pkl", PyValue.int 7)]
      [("training_time", PyValue.int 5)] "training_time").1
    (by intro h; exact PyValue.noConfusion h)

/-- C3 counterexample: for the catalog stage `"training_time"` and the
payload `None`, `write_both` immediately followed by
`load_into_session` without force returns `false`, not success. -/
theorem claim_C3_counterexample :
    (load_from_file_to_session ⟨"artifacts"⟩
        (save_to_session_and_file ⟨"artifacts"⟩ [] [] "training_time" PyValue.none).2.1
        (save_to_session_and_file ⟨"artifacts"⟩ [] [] "training_time" PyValue.none).1
        "training_time" false).2 = false := rfl

/-- C3 (amended): for every stage_id and every payload v accepted by the
validity predicate, `write_both(stage_id, v)` immediately followed by
`load_into_session(stage_id)` without force returns success and leaves
the Session Tier entry for stage_id equal to v, without re-reading the
durable file: the outcome is the same for every durable-tier content
`fs2`. -/
theorem claim_C3_write_then_load (m : StepResultsManager) (sess : Session) (fs fs2 : Files)
    (k : String) (v : PyValue) (hv : is_valid_data v = true) :
    load_from_file_to_session m fs2 (save_to_session_and_file m sess fs k v).1 k false
      = ((save_to_session_and_file m sess fs k v).1, true)
    ∧ assocLookup (save_to_session_and_file m sess fs k v).1 k = some v := by
  have h1 : (save_to_session_and_file m sess fs k v).1 = assocInsert sess k v := rfl
  have h2 : validEntry (assocInsert sess k v) k = true := by
    simp [validEntry, assocLookup_insert_self, hv]
  rw [h1]
  exact ⟨by simp [load_from_file_to_session, h2], assocLookup_insert_self _ _ _⟩

/-- Witness for C3: writing `42` to `"training_time"`, then loading
without force, succeeds with the session holding `42` even against an
unrelated durable tier holding `999`. -/
theorem claim_C3_write_then_load_witness :
    is_valid_data (PyValue.int 42) = true
    ∧ (load_from_file_to_session ⟨"artifacts"⟩
          [("artifacts/training_time.pkl", PyValue.int 999)]
          (save_to_session_and_file ⟨"artifacts"⟩ [] [] "training_time" (PyValue.int 42)).1
          "training_time" false
        = ((save_to_session_and_file ⟨"artifacts"⟩ [] [] "training_time" (PyValue.int 42)).1,
           true)
       ∧ assocLookup
          (save_to_session_and_file ⟨"artifacts"⟩ [] [] "training_time" (PyValue.int 42)).1
          "training_time" = some (PyValue.int 42)) :=
  ⟨rfl, claim_C3_write_then_load ⟨"artifacts"⟩ [] []
    [("artifacts/training_time.pkl", PyValue.int 999)] "training_time" (PyValue.int 42) rfl⟩

/-- C5: for every catalog stage_id and valid payload v, a successful
`write_durable(stage_id, v)` followed by `read_durable(stage_id)`
returns a value equal to v (serialization round-trip). -/
theorem claim_C5_roundtrip (m : StepResultsManager) (fs : Files) (k fn : String) (v : PyValue)
    (hk : assocLookup STEP_MAPPINGS k = some fn) (_hv : is_valid_data v = true) :
    (save_step_result m fs k v).2 = true
    ∧ load_step_result m (save_step_result m fs k v).1 k = v := by
  simp only [save_step_result, load_step_result, hk]
  refine ⟨trivial, ?_⟩
  rw [assocLookup_insert_self]

/-- Witness for C5 at stage `"training_time"` with payload `42`. -/
theorem claim_C5_roundtrip_witness :
    assocLookup STEP_MAPPINGS "training_time" = some "training_time.pkl"
    ∧ is_valid_data (PyValue.int 42) = true
    ∧ ((save_step_result ⟨"artifacts"⟩ [] "training_time" (PyValue.int 42)).2 = true
       ∧ load_step_result ⟨"artifacts"⟩
          (save_step_result ⟨"artifacts"⟩ [] "training_time" (PyValue.int 42)).1
          "training_time" = PyValue.int 42) :=
  ⟨rfl, rfl, claim_C5_roundtrip ⟨"artifacts"⟩ [] "training_time" "training_time.pkl"
    (PyValue.int 42) rfl rfl⟩

/-- C6: the validity predicate: `None` is invalid; empty dict, empty
list/tuple and empty DataFrames are invalid; `0` and `""` are valid; any
non-empty structure is valid. -/
theorem claim_C6_validity :
    is_valid_data PyValue.none = false
    ∧ is_valid_data (PyValue.dict []) = false
    ∧ is_valid_data (PyValue.pylist []) = false
    ∧ is_valid_data (PyValue.tuple []) = false
    ∧ is_valid_data (PyValue.dataframe 0 0) = false
    ∧ is_valid_data (PyValue.dataframe 0 3) = false
    ∧ is_valid_data (PyValue.dataframe 3 0) = false
    ∧ is_valid_data (PyValue.int 0) = true
    ∧ is_valid_data (PyValue.str "") = true
    ∧ (∀ p es, is_valid_data (PyValue.dict (p :: es)) = true)
    ∧ (∀ x xs, is_valid_data (PyValue.pylist (x :: xs)) = true)
    ∧ (∀ x xs, is_valid_data (PyValue.tuple (x :: xs)) = true)
    ∧ (∀ r c : Nat, is_valid_data (PyValue.dataframe (r + 1) (c + 1)) = true) := by
  refine ⟨rfl, rfl, rfl, rfl, rfl, rfl, rfl, rfl, rfl, ?_, ?_, ?_, ?_⟩ <;>
    intros <;> simp [is_valid_data]

/-- Witness for C6's universally quantified non-empty-structure parts. -/
theorem claim_C6_validity_witness :
    is_valid_data (PyValue.dict [("a", PyValue.int 1)]) = true
    ∧ is_valid_data (PyValue.pylist [PyValue.int 1]) = true
    ∧ is_valid_data (PyValue.tuple [PyValue.str "x"]) = true
    ∧ is_valid_data (PyValue.dataframe 2 3) = true :=
  ⟨claim_C6_validity.2.2.2.2.2.2.2.2.2.1 ("a", PyValue.int 1) [],
   claim_C6_validity.2.2.2.2.2.2.2.2.2.2.1 (PyValue.int 1) [],
   claim_C6_validity.2.2.2.2.2.2.2.2.2.2.2.1 (PyValue.str "x") [],
   claim_C6_validity.2.2.2.2.2.2.2.2.2.2.2.2 1 2⟩

/-- C7: `write_both` sets the Session Tier entry unconditionally (for
every stage_id, including non-catalog ids), and its success flag equals
the durable write's outcome alone, hence `false` for unknown
stage_ids. -/
theorem claim_C7_write_both (m : StepResultsManager) (sess : Session) (fs : Files)
    (k : String) (v : PyValue) :
    (save_to_session_and_file m sess fs k v).1 = assocInsert sess k v
    ∧ (save_to_session_and_file m sess fs k v).2.2 = (save_step_result m fs k v).2
    ∧ (assocLookup STEP_MAPPINGS k = Option.none →
        (save_to_session_and_file m sess fs k v).2.2 = false) := by
  refine ⟨rfl, rfl, fun hk => ?_⟩
  simp [save_to_session_and_file, save_step_result, hk]

/-- Witness for C7: `write_both` on the unknown id `"unknown_stage"`
reports failure (while the session write still happened, per the first
conjunct of `claim_C7_write_both`). -/
theorem claim_C7_write_both_witness :
    (save_to_session_and_file ⟨"artifacts"⟩ [] [] "unknown_stage" (PyValue.int 1)).2.2
      = false :=
  (claim_C7_write_both ⟨"artifacts"⟩ [] [] "unknown_stage" (PyValue.int 1)).2.2 rfl

/-- C9: the singleton accessor: with an existing instance every call
ignores its argument and returns that same instance unchanged; before
first construction, a call without `artifacts_dir` raises the
initialization `ValueError`, and a call with `artifacts_dir` constructs
and installs the shared instance. -/
theorem claim_C9_singleton :
    (∀ (m : StepResultsManager) (arg : Option String),
      get_step_results_manager (some m) arg = Except.ok (m, some m))
    ∧ get_step_results_manager Option.none Option.none
        = Except.error "artifacts_dir must be provided for first initialization"
    ∧ (∀ d : String, get_step_results_manager Option.none (some d)
        = Except.ok (⟨d⟩, some (⟨d⟩ : StepResultsManager))) :=
  ⟨fun _ _ => rfl, rfl, fun _ => rfl⟩

/-- Witness for C9: a subsequent call with a different directory argument
still returns the originally constructed instance. -/
theorem claim_C9_singleton_witness :
    get_step_results_manager (some ⟨"artifacts"⟩) (some "other_dir")
      = Except.ok ((⟨"artifacts"⟩ : StepResultsManager),
                   some (⟨"artifacts"⟩ : StepResultsManager)) :=
  claim_C9_singleton.1 ⟨"artifacts"⟩ (some "other_dir")

/-! ### C4: missing/completed partition the catalog -/

theorem nodup_keys_pair_eq {α : Type} :
    ∀ (l : List (String × α)), (l.map Prod.fst).Nodup →
      ∀ a, a ∈ l → ∀ b, b ∈ l → a.1 = b.1 → a = b := by
  intro l
  induction l with
  | nil => intro _ a ha; simp at ha
  | cons p rest ih =>
    intro hnd a ha b hb hab
    simp only [List.map_cons, List.nodup_cons] at hnd
    rcases List.mem_cons.1 ha with ha' | ha' <;> rcases List.mem_cons.1 hb with hb' | hb'
    · rw [ha', hb']
    · exfalso
      apply hnd.1
      rw [ha'] at hab
      rw [hab]
      exact List.mem_map_of_mem Prod.fst hb'
    · exfalso
      apply hnd.1
      rw [hb'] at hab
      rw [← hab]
      exact List.mem_map_of_mem Prod.fst ha'
    · exact ih hnd.2 a ha' b hb' hab

/-- C4: for every session and file state, `missing_stages` and
`completed_stages` partition the Stage Catalog: both are sublists of the
catalog key sequence (hence preserve catalog order and contain no
non-catalog id and no duplicate), and every catalog key belongs to
exactly one of the two. -/
theorem claim_C4_partition (m : StepResultsManager) (fs : Files) (sess : Session) :
    List.Sublist (get_missing_steps m fs sess) stepKeys
    ∧ List.Sublist (get_completed_steps m fs sess) stepKeys
    ∧ (get_missing_steps m fs sess).Nodup
    ∧ (get_completed_steps m fs sess).Nodup
    ∧ ∀ k : String,
        (k ∈ stepKeys ↔
          (k ∈ get_missing_steps m fs sess ∨ k ∈ get_completed_steps m fs sess))
        ∧ ¬(k ∈ get_missing_steps m fs sess ∧ k ∈ get_completed_steps m fs sess) := by
  have hnd : (STEP_MAPPINGS.map Prod.fst).Nodup := by decide
  have hsubM : List.Sublist (get_missing_steps m fs sess) stepKeys :=
    List.Sublist.map Prod.fst (List.filter_sublist _)
  have hsubC : List.Sublist (get_completed_steps m fs sess) stepKeys :=
    List.Sublist.map Prod.fst (List.filter_sublist _)
  refine ⟨hsubM, hsubC, hnd.sublist hsubM, hnd.sublist hsubC, fun k => ⟨⟨?_, ?_⟩, ?_⟩⟩
  · intro hk2
    obtain ⟨kv, hkv, rfl⟩ := List.mem_map.1 hk2
    by_cases hdone : (validEntry sess kv.1 || fileExists m fs kv.2) = true
    · right
      exact List.mem_map_of_mem Prod.fst (List.mem_filter.2 ⟨hkv, hdone⟩)
    · left
      refine List.mem_map_of_mem Prod.fst (List.mem_filter.2 ⟨hkv, ?_⟩)
      simp only [Bool.not_eq_true] at hdone
      simp [hdone]
  · rintro (hm | hm)
    · exact hsubM.subset hm
    · exact hsubC.subset hm
  · rintro ⟨hm, hc⟩
    obtain ⟨kv1, hkv1, hk1⟩ := List.mem_map.1 hm
    obtain ⟨kv2, hkv2, hk2⟩ := List.mem_map.1 hc
    have h1 := List.mem_filter.1 hkv1
    have h2 := List.mem_filter.1 hkv2
    have heq : kv1 = kv2 :=
      nodup_keys_pair_eq STEP_MAPPINGS hnd kv1 h1.1 kv2 h2.1 (by rw [hk1, hk2])
    rw [heq] at h1
    have hb1 : (!(validEntry sess kv2.1 || fileExists m fs kv2.2)) = true := h1.2
    have hb2 : (validEntry sess kv2.1 || fileExists m fs kv2.2) = true := h2.2
    rw [hb2] at hb1
    simp at hb1

/-- Witness for C4 at the catalog key `"training_time"` with empty
session and durable tiers. -/
theorem claim_C4_partition_witness :
    ("training_time" ∈ stepKeys ↔
      ("training_time" ∈ get_missing_steps ⟨"artifacts"⟩ [] []
       ∨ "training_time" ∈ get_completed_steps ⟨"artifacts"⟩ [] []))
    ∧ ¬("training_time" ∈ get_missing_steps ⟨"artifacts"⟩ [] []
        ∧ "training_time" ∈ get_completed_steps ⟨"artifacts"⟩ [] []) :=
  (claim_C4_partition ⟨"artifacts"⟩ [] []).2.2.2.2 "training_time"

/-! ### C10: a durable file storing `None` -/

theorem assocLookup_status (m : StepResultsManager) (fs : Files) (sess : Session) :
    ∀ (l : List (String × String)) (k : String),
      assocLookup (l.map (fun kv => (kv.1, statusEntry m fs sess kv.1 kv.2))) k
        = (assocLookup l k).map (statusEntry m fs sess k) := by
  intro l
  induction l with
  | nil => intro k; rfl
  | cons p rest ih =>
    intro k
    by_cases h : p.1 = k
    · simp [assocLookup, h]
    · simp [assocLookup, h, ih]

/-- C10: for a catalog stage whose durable file exists but stores `None`,
`read_durable` returns absent (`None`), `load_into_session` fails
without touching the session (both on the no-valid-entry path and under
`force`), while `status` still reports `in_file = true` and
`completed_stages` still lists the stage. -/
theorem claim_C10_stored_none (m : StepResultsManager) (fs : Files) (k fn : String)
    (hk : assocLookup STEP_MAPPINGS k = some fn)
    (hf : assocLookup fs (filePath m fn) = some PyValue.none) :
    load_step_result m fs k = PyValue.none
    ∧ (∀ sess, validEntry sess k = false →
        load_from_file_to_session m fs sess k false = (sess, false))
    ∧ (∀ sess, load_from_file_to_session m fs sess k true = (sess, false))
    ∧ (∀ sess, assocLookup (get_step_status m fs sess) k
        = some { in_session := validEntry sess k, in_file := true,
                 file_path := some (filePath m fn) })
    ∧ (∀ sess, k ∈ get_completed_steps m fs sess) := by
  have hload : load_step_result m fs k = PyValue.none := by
    simp [load_step_result, hk, hf]
  have hex : fileExists m fs fn = true := by simp [fileExists, hf]
  refine ⟨hload, fun sess hv => ?_, fun sess => ?_, fun sess => ?_, fun sess => ?_⟩
  · simp [load_from_file_to_session, hv, hload, PyValue.isNone]
  · simp [load_from_file_to_session, hload, PyValue.isNone]
  · rw [show get_step_status m fs sess
        = STEP_MAPPINGS.map (fun kv => (kv.1, statusEntry m fs sess kv.1 kv.2)) from rfl,
      assocLookup_status m fs sess STEP_MAPPINGS k, hk]
    simp [statusEntry, hex]
  · have hmem : (k, fn) ∈ STEP_MAPPINGS := assocLookup_mem hk
    refine List.mem_map_of_mem Prod.fst (List.mem_filter.2 ⟨hmem, ?_⟩)
    simp [hex]

/-- Witness for C10: stage `"training_time"` whose file stores `None`,
checked against the empty session and a session holding a valid entry. -/
theorem claim_C10_stored_none_witness :
    load_step_result ⟨"artifacts"⟩ [("artifacts/training_time.pkl", PyValue.none)]
        "training_time" = PyValue.none
    ∧ load_from_file_to_session ⟨"artifacts"⟩
        [("artifacts/training_time.pkl", PyValue.none)] [] "training_time" false
        = ([], false)
    ∧ load_from_file_to_session ⟨"artifacts"⟩
        [("artifacts/training_time.pkl", PyValue.none)]
        [("training_time", PyValue.int 5)] "training_time" true
        = ([("training_time", PyValue.int 5)], false)
    ∧ assocLookup
        (get_step_status ⟨"artifacts"⟩ [("artifacts/training_time.pkl", PyValue.none)] [])
        "training_time"
        = some { in_session := false, in_file := true,
                 file_path := some "artifacts/training_time.pkl" }
    ∧ "training_time" ∈ get_completed_steps ⟨"artifacts"⟩
        [("artifacts/training_time.pkl", PyValue.none)] [] :=
  let c := claim_C10_stored_none ⟨"artifacts"⟩
    [("artifacts/training_time.pkl", PyValue.none)] "training_time" "training_time.pkl"
    rfl rfl
  ⟨c.1, c.2.1 [] rfl, c.2.2.1 [("training_time", PyValue.int 5)], c.2.2.2.1 [],
   c.2.2.2.2 []⟩

/-! ### C8: idempotence of restore_all -/

/-- The session transformer of one `load_from_file_to_session` call with
`force = false`. -/
def loadStep (m : StepResultsManager) (fs : Files) (sess : Session) (k : String) : Session :=
  (load_from_file_to_session m fs sess k false).1

/-- The session after folding `loadStep` over a catalog fragment. -/
def restorePass (m : StepResultsManager) (fs : Files) (sess : Session)
    (l : List (String × String)) : Session :=
  l.foldl (fun s kv => loadStep m fs s kv.1) sess

theorem loadStep_eq (m : StepResultsManager) (fs : Files) (sess : Session) (k : String) :
    loadStep m fs sess k =
      if validEntry sess k then sess
      else if (load_step_result m fs k).isNone then sess
      else assocInsert sess k (load_step_result m fs k) := by
  simp only [loadStep, load_from_file_to_session, Bool.not_false, Bool.true_and]
  split
  · rfl
  · split <;> rfl

theorem loadStep_frame (m : StepResultsManager) (fs : Files) (sess : Session)
    (k k' : String) (h : k' ≠ k) :
    assocLookup (loadStep m fs sess k) k' = assocLookup sess k' := by
  rw [loadStep_eq]
  split
  · rfl
  · split
    · rfl
    · exact assocLookup_insert_ne _ _ _ _ h

theorem loadStep_fix (m : StepResultsManager) (fs : Files) (sess t : Session) (k : String)
    (h : assocLookup t k = assocLookup (loadStep m fs sess k) k) :
    loadStep m fs t k = t := by
  rw [loadStep_eq] at h ⊢
  by_cases hv : validEntry sess k
  · rw [if_pos hv] at h
    rw [if_pos ((validEntry_congr h).trans hv)]
  · rw [if_neg hv] at h
    by_cases hn : (load_step_result m fs k).isNone
    · rw [if_pos hn] at h
      rw [if_neg (fun hh => hv ((validEntry_congr h).symm.trans hh)), if_pos hn]
    · rw [if_neg hn, assocLookup_insert_self] at h
      by_cases hvt : validEntry t k
      · rw [if_pos hvt]
      · rw [if_neg hvt, if_neg hn]
        exact assocInsert_lookup_eq h

theorem restorePass_frame (m : StepResultsManager) (fs : Files) :
    ∀ (l : List (String × String)) (sess : Session) (k : String),
      k ∉ l.map Prod.fst →
      assocLookup (restorePass m fs sess l) k = assocLookup sess k := by
  intro l
  induction l with
  | nil => intro sess k _; rfl
  | cons p rest ih =>
    intro sess k hk
    simp only [List.map_cons, List.mem_cons] at hk
    push_neg at hk
    have : restorePass m fs sess (p :: rest) = restorePass m fs (loadStep m fs sess p.1) rest :=
      rfl
    rw [this, ih _ k hk.2, loadStep_frame _ _ _ _ _ hk.1]

theorem restorePass_fix (m : StepResultsManager) (fs : Files) :
    ∀ (l : List (String × String)), (l.map Prod.fst).Nodup →
      ∀ (sess : Session), ∀ kv ∈ l,
        loadStep m fs (restorePass m fs sess l) kv.1 = restorePass m fs sess l := by
  intro l
  induction l with
  | nil => intro _ sess kv hkv; simp at hkv
  | cons p rest ih =>
    intro hnd sess kv hkv
    simp only [List.map_cons, List.nodup_cons] at hnd
    have hpass : restorePass m fs sess (p :: rest)
        = restorePass m fs (loadStep m fs sess p.1) rest := rfl
    rcases List.mem_cons.1 hkv with hkv' | hkv'
    · rw [hpass, hkv']
      exact loadStep_fix m fs sess _ p.1 (restorePass_frame m fs rest _ p.1 hnd.1)
    · rw [hpass]
      exact ih hnd.2 _ kv hkv'

theorem restorePass_idem_of_fix (m : StepResultsManager) (fs : Files) :
    ∀ (l : List (String × String)) (sess : Session),
      (∀ kv ∈ l, loadStep m fs sess kv.1 = sess) →
      restorePass m fs sess l = sess := by
  intro l
  induction l with
  | nil => intro sess _; rfl
  | cons p rest ih =>
    intro sess h
    have hpass : restorePass m fs sess (p :: rest)
        = restorePass m fs (loadStep m fs sess p.1) rest := rfl
    rw [hpass, h p (List.mem_cons_self _ _)]
    exact ih sess (fun kv hkv => h kv (List.mem_cons_of_mem _ hkv))

theorem restore_all_snd_eq (m : StepResultsManager) (fs : Files) :
    ∀ (l : List (String × String)) (acc : List (String × Bool)) (sess : Session),
      (l.foldl
        (fun (acc : List (String × Bool) × Session) kv =>
          let r := load_from_file_to_session m fs acc.2 kv.1 false
          (acc.1 ++ [(kv.1, r.2)], r.1)) (acc, sess)).2
        = restorePass m fs sess l := by
  intro l
  induction l with
  | nil => intro acc sess; rfl
  | cons p rest ih => intro acc sess; exact ih _ _

theorem restore_all_results_keys (m : StepResultsManager) (fs : Files) (force : Bool) :
    ∀ (l : List (String × String)) (acc : List (String × Bool)) (sess : Session),
      (l.foldl
        (fun (acc : List (String × Bool) × Session) kv =>
          let r := load_from_file_to_session m fs acc.2 kv.1 force
          (acc.1 ++ [(kv.1, r.2)], r.1)) (acc, sess)).1.map Prod.fst
        = acc.map Prod.fst ++ l.map Prod.fst := by
  intro l
  induction l with
  | nil => intro acc sess; simp
  | cons p rest ih =>
    intro acc sess
    rw [List.foldl_cons]
    rw [ih]
    simp

/-- C8: `restore_all(force=false)` is idempotent — running it a second
time from the session produced by the first run leaves the session
unchanged — and its result map carries exactly the catalog keys in
order. -/
theorem claim_C8_restore_idempotent (m : StepResultsManager) (fs : Files) (sess : Session) :
    (restore_all_steps m fs (restore_all_steps m fs sess false).2 false).2
      = (restore_all_steps m fs sess false).2
    ∧ (restore_all_steps m fs sess false).1.map Prod.fst = stepKeys := by
  have hnd : (STEP_MAPPINGS.map Prod.fst).Nodup := by decide
  have hsnd : ∀ s : Session, (restore_all_steps m fs s false).2
      = restorePass m fs s STEP_MAPPINGS :=
    fun s => restore_all_snd_eq m fs STEP_MAPPINGS [] s
  constructor
  · simp only [hsnd]
    exact restorePass_idem_of_fix m fs STEP_MAPPINGS _
      (fun kv hkv => restorePass_fix m fs STEP_MAPPINGS hnd sess kv hkv)
  · have h := restore_all_results_keys m fs false STEP_MAPPINGS [] sess
    simpa using h

/-- Witness for C8 with a one-file durable tier and empty session. -/
theorem claim_C8_restore_idempotent_witness :
    (restore_all_steps ⟨"artifacts"⟩ [("artifacts/training_time.pkl", PyValue.int 3)]
        (restore_all_steps ⟨"artifacts"⟩ [("artifacts/training_time.pkl", PyValue.int 3)]
          [] false).2 false).2
      = (restore_all_steps ⟨"artifacts"⟩ [("artifacts/training_time.pkl", PyValue.int 3)]
          [] false).2
    ∧ (restore_all_steps ⟨"artifacts"⟩ [("artifacts/training_time.pkl", PyValue.int 3)]
        [] false).1.map Prod.fst = stepKeys :=
  claim_C8_restore_idempotent ⟨"artifacts"⟩
    [("artifacts/training_time.pkl", PyValue.int 3)] []
